import Mathlib

/-!
Shallow embedding of `inaFaceGender/face_tracking.py` (classes `Tracker`,
`TrackerList`, `TrackerDetector`) together with the parts of the dlib
geometry API the file uses (`dlib.rectangle`: `area`, `intersect`).

Conventions of the embedding:
* Python exceptions are modelled with `Except PyErr`; a statement that
  raises maps to `Except.error`.
* The dlib correlation tracker is an external collaborator.  Its observable
  state, as used by `face_tracking.py`, is its current position
  (`t.get_position()`); the results of its `update` calls are supplied by an
  arbitrary environment `TrackEnv`, over which all theorems quantify.
  Positions are modelled as integer rectangles, so the `int(...)` casts in
  `intersect_area` are the identity.
* numpy frames are modelled as a structure carrying a Python object
  identity (`fid`), a shape and flattened contents.  The expression
  `if frame != self.last_frame:` applies numpy's *elementwise* `!=` and
  then asks for the truth value of the resulting array, which Python
  accepts only for size-one arrays; for a same-shaped frame of any other
  size it raises `ValueError`.  (numpy's handling of mismatched shapes
  varies by version; frames of one video share a shape, and no theorem
  below depends on that branch, which we also model as `ValueError`.)
* Numeric quantities (tracker qualities, IoU ratios) are modelled as
  exact rationals.
-/

namespace FaceTracking

/-- The Python exceptions the embedded code can raise. -/
inductive PyErr where
  | nameError
  | valueError
  | zeroDivisionError
  | attributeError
  | keyError
  deriving DecidableEq, Repr

/-- `dlib.rectangle`: an axis-aligned box with *inclusive* integer
coordinates `left, top, right, bottom`. -/
structure Rect where
  left : ℤ
  top : ℤ
  right : ℤ
  bottom : ℤ
  deriving DecidableEq, Repr

/-- dlib `rectangle::is_empty`: `t > b || l > r`. -/
def Rect.isEmpty (x : Rect) : Bool :=
  decide (x.bottom < x.top) || decide (x.right < x.left)

/-- dlib `rectangle::width`: `0` when empty, else `r - l + 1`. -/
def Rect.width (x : Rect) : ℤ :=
  if x.isEmpty then 0 else x.right - x.left + 1

/-- dlib `rectangle::height`: `0` when empty, else `b - t + 1`. -/
def Rect.height (x : Rect) : ℤ :=
  if x.isEmpty then 0 else x.bottom - x.top + 1

/-- dlib `rectangle::area = width() * height()`. -/
def Rect.area (x : Rect) : ℤ := x.width * x.height

/-- dlib `rectangle::intersect`: coordinatewise max of the top-left corners
and min of the bottom-right corners. -/
def Rect.intersect (x y : Rect) : Rect :=
  ⟨max x.left y.left, max x.top y.top, min x.right y.right, min x.bottom y.bottom⟩

/-- A numpy image frame: a Python object identity `fid` (two frames are the
same Python object exactly when their `fid`s agree), a shape
`(height, width, channels)` and the flattened pixel contents. -/
structure Frame where
  fid : ℕ
  height : ℕ
  width : ℕ
  channels : ℕ
  data : List ℤ
  deriving DecidableEq, Repr

/-- `frame.shape` of a numpy frame. -/
def Frame.shape (f : Frame) : ℕ × ℕ × ℕ := (f.height, f.width, f.channels)

/-- `frame.size`: number of elements. -/
def Frame.size (f : Frame) : ℕ := f.height * f.width * f.channels

/-- Truth value of the Python expression `a != b` for numpy arrays `a, b`:
numpy compares *elementwise* (never by object identity), and `bool(...)` of
the resulting array is defined only for size-one arrays; any multi-element
(or shape-mismatched) comparison raises `ValueError` in boolean context. -/
def Frame.neTruth (a b : Frame) : Except PyErr Bool :=
  if a.height = b.height ∧ a.width = b.width ∧ a.channels = b.channels then
    if a.size = 1 then .ok (decide (a.data ≠ b.data)) else .error .valueError
  else .error .valueError

/-- The external single-object visual-tracking primitive
(`dlib.correlation_tracker`), abstracted as an environment:
`propagate pos f` is the `(get_position(), quality)` pair observed after
`t.update(f)` from current position `pos`; `probe pos f bb` is the quality
returned by `t.update(f, bb)`.  All theorems hold for every environment. -/
structure TrackEnv where
  propagate : Rect → Frame → Rect × ℚ
  probe : Rect → Frame → Rect → ℚ

/-- State of one `Tracker` object: `last_frame` and `tid` are its Python
attributes, `pos` the position of its dlib tracker `self.t`, `update_val`
the memoized quality (`none` while the attribute is still unset, reading it
then raises `AttributeError`). -/
structure Tracker where
  last_frame : Frame
  pos : Rect
  tid : ℕ
  update_val : Option ℚ
  deriving DecidableEq, Repr

/-- `Tracker.__init__(frame, bb, tid)`: stores the frame, starts the dlib
tracker at `bb` (so its position is `bb`), stores the id; `update_val` is
not yet assigned. -/
def mkTracker (frame : Frame) (bb : Rect) (tid : ℕ) : Tracker :=
  { last_frame := frame, pos := bb, tid := tid, update_val := none }

/-- `Tracker.intersect_area(bb)`: the area of `bb.intersect(tmp)` where
`tmp` is the tracker position with each coordinate cast through `int(...)`
(the identity under the integer-position model). -/
def Tracker.intersect_area (tr : Tracker) (bb : Rect) : ℤ :=
  (Rect.intersect bb tr.pos).area

/-- `Tracker.iou(bb)`, verbatim from the source:

`inter / (inter + self.t.get_position().area() + bb.area())`

(a true division of Python numbers, raising `ZeroDivisionError` when the
denominator is zero).  Note the denominator the code uses: it *adds* the
intersection to the two areas instead of subtracting it. -/
def Tracker.iou (tr : Tracker) (bb : Rect) : Except PyErr ℚ :=
  let inter := tr.intersect_area bb
  let denom := inter + tr.pos.area + bb.area
  if denom = 0 then .error .zeroDivisionError
  else .ok ((inter : ℚ) / (denom : ℚ))

/-- `Tracker.update(frame)`:

```
if frame != self.last_frame:
    self.update_val = self.t.update(frame)
    self.last_frame = frame
return self.update_val
```

The guard applies numpy elementwise `!=` (see `Frame.neTruth`); when it
evaluates to true, the dlib tracker is stepped (new position and quality
from the environment) and the result memoized; reading a never-assigned
`update_val` raises `AttributeError`. -/
def Tracker.update (env : TrackEnv) (tr : Tracker) (frame : Frame) :
    Except PyErr (Tracker × ℚ) := do
  let ne ← Frame.neTruth frame tr.last_frame
  if ne then
    let (p, q) := env.propagate tr.pos frame
    .ok ({ tr with pos := p, update_val := some q, last_frame := frame }, q)
  else
    match tr.update_val with
    | some q => .ok (tr, q)
    | none => .error .attributeError

/-- `Tracker.tracking_quality(frame, bb)`: `ret = self.t.update(frame, bb)`
then `self.t.start_track(frame, bb)` (re-binding the dlib tracker to `bb`),
returning `ret`.  Only `self.t` is touched: `last_frame` and `update_val`
are unchanged. -/
def Tracker.tracking_quality (env : TrackEnv) (tr : Tracker) (frame : Frame)
    (bb : Rect) : Tracker × ℚ :=
  ({ tr with pos := bb }, env.probe tr.pos frame bb)

/-- `Tracker.is_in_frame(frame_shape)`.  Its body is

```
fheight, fwidth, _ = frame.shape
...
```

which reads the name `frame` — not its parameter `frame_shape` — and no
such name is in scope in `face_tracking.py`, so every call raises
`NameError` before anything else happens. -/
def Tracker.is_in_frame (_tr : Tracker) (_frame_shape : ℕ × ℕ × ℕ) :
    Except PyErr Bool :=
  .error .nameError

/-- The body of `Tracker.is_in_frame` with its one slip repaired (the shape
is read from the parameter `frame_shape` instead of the undefined name
`frame`):
`(pos.right() > 0) and (pos.left() < fwidth) and (pos.top() < fheight) and (pos.bottom() > 0)`.
This is the membership test the surrounding code and the spec intend ("at
least one pixel in the frame"). -/
def Tracker.is_in_frame_intended (tr : Tracker) (frame_shape : ℕ × ℕ × ℕ) : Bool :=
  let fheight : ℤ := frame_shape.1
  let fwidth : ℤ := frame_shape.2.1
  decide (0 < tr.pos.right) && decide (tr.pos.left < fwidth) &&
    decide (tr.pos.top < fheight) && decide (0 < tr.pos.bottom)

/-- A Python `dict` keyed by id, as an insertion-ordered association list
(Python dicts preserve insertion order, which the code's iteration and
`np.argmax` tie-breaking depend on). -/
abbrev Dict := List (ℕ × Tracker)

/-- `d[k]` lookup. -/
def dictGet : Dict → ℕ → Option Tracker
  | [], _ => none
  | (k, v) :: rest, key => if k = key then some v else dictGet rest key

/-- `d[k] = v`: replace in place when the key exists (keeping its position,
as Python dicts do), else append. -/
def dictSet : Dict → ℕ → Tracker → Dict
  | [], key, v => [(key, v)]
  | (k, w) :: rest, key, v =>
    if k = key then (k, v) :: rest else (k, w) :: dictSet rest key v

/-- `del d[k]`: drop the binding of `key` (keys are unique in a dict). -/
def dictErase : Dict → ℕ → Dict
  | [], _ => []
  | (k, w) :: rest, key => if k = key then rest else (k, w) :: dictErase rest key

/-- `list(d)`: the keys in insertion order. -/
def dictKeys (d : Dict) : List ℕ := d.map Prod.fst

/-- State of a `TrackerList`: the dict `self.d` of live trackers and the id
counter `self.i`. -/
structure TrackerList where
  d : Dict
  i : ℕ
  deriving DecidableEq, Repr

/-- `TrackerList.__init__`: `self.d = {}; self.i = 0`. -/
def TrackerList.init : TrackerList := ⟨[], 0⟩

/-- The loop body of `TrackerList.update`:

```
for fid in list(self.d):
    if self.d[fid].update(frame) < 7 or not self.d[fid].is_in_frame(frame.shape):
        del self.d[fid]
```

The key list is snapshotted before the loop; `Tracker.update` mutates the
tracker in place (reflected by writing the stepped tracker back into the
dict); `or` short-circuits, so `is_in_frame` runs only when the quality is
at least 7. -/
def tlUpdateLoop (env : TrackEnv) (frame : Frame) : List ℕ → Dict → Except PyErr Dict
  | [], d => .ok d
  | fid :: rest, d =>
    match dictGet d fid with
    | none => .error .keyError
    | some tr => do
      let (tr1, q) ← Tracker.update env tr frame
      let d1 := dictSet d fid tr1
      if q < (7 : ℚ) then
        tlUpdateLoop env frame rest (dictErase d1 fid)
      else do
        let b ← Tracker.is_in_frame tr1 frame.shape
        if !b then tlUpdateLoop env frame rest (dictErase d1 fid)
        else tlUpdateLoop env frame rest d1

/-- `TrackerList.update(frame)` (the per-frame propagate-and-retire pass). -/
def TrackerList.update (env : TrackEnv) (s : TrackerList) (frame : Frame) :
    Except PyErr TrackerList :=
  (tlUpdateLoop env frame (dictKeys s.d) s.d).map (fun d => ⟨d, s.i⟩)

/-- Helper for `np.argmax`: fold keeping the first index attaining the
maximum (`np.argmax` returns the first maximal index). -/
def argmaxGo : List ℚ → ℚ → ℕ → ℕ → ℕ
  | [], _, bi, _ => bi
  | x :: xs, bv, bi, ci =>
    if bv < x then argmaxGo xs x ci (ci + 1) else argmaxGo xs bv bi (ci + 1)

/-- `np.argmax` on a nonempty list of rationals (first maximal index). -/
def argmaxQ : List ℚ → ℕ
  | [] => 0
  | x :: xs => argmaxGo xs x 0 1

/-- The list comprehension of `TrackerList.ingest_detection`:

```
rmscore = [self.d[k].tracking_quality(frame, bb) if self.d[k].iou(bb) > 0.5
           else 0 for k in to_remove]
```

evaluated left to right; `iou` can raise `ZeroDivisionError`;
`tracking_quality` mutates the tracker in place (threaded through the
dict).  Returns the score list, the updated dict, and (as a ghost
observation) how many times the mutating probe was invoked. -/
def scoreList (env : TrackEnv) (frame : Frame) (bb : Rect) :
    List ℕ → Dict → Except PyErr (List ℚ × Dict × ℕ)
  | [], d => .ok ([], d, 0)
  | k :: ks, d =>
    match dictGet d k with
    | none => .error .keyError
    | some tr =>
      match Tracker.iou tr bb with
      | .error e => .error e
      | .ok v =>
        if (1 / 2 : ℚ) < v then
          let p := Tracker.tracking_quality env tr frame bb
          match scoreList env frame bb ks (dictSet d k p.1) with
          | .error e => .error e
          | .ok (rest, d1, n) => .ok (p.2 :: rest, d1, n + 1)
        else
          match scoreList env frame bb ks d with
          | .error e => .error e
          | .ok (rest, d1, n) => .ok ((0 : ℚ) :: rest, d1, n)

/-- Loop state of `ingest_detection`: the shrinking pool `to_remove`, the
dict `to_add` under construction, the live dict `self.d` (whose trackers
probes mutate in place), the id counter `self.i`, and ghost observations of
the pass: ids rebound, ids spawned, probe invocations. -/
structure IngestState where
  toRemove : List ℕ
  toAdd : Dict
  d : Dict
  i : ℕ
  rebound : List ℕ
  spawned : List ℕ
  probes : ℕ
  deriving DecidableEq, Repr

/-- The `for bb in lbox:` loop of `TrackerList.ingest_detection`:

```
rmscore = [... if self.d[k].iou(bb) > 0.5 else 0 for k in to_remove]
am = np.argmax(rmscore) if len(rmscore) > 0 else None
if am is not None and rmscore[am] > 7:
    idrm = to_remove[am]
    to_remove.remove(idrm)
    to_add[idrm] = Tracker(frame, bb, idrm)
else:
    to_add[self.i] = Tracker(frame, bb, self.i)
    self.i += 1
```

`rmscore[am]` is modelled with `getD _ 0`; `np.argmax` keeps its index in
range, so the default is never consulted (and the `to_remove[am]` lookup,
modelled with `get?`, never hits its unreachable `IndexError` branch,
rendered here as an error). -/
def ingestLoop (env : TrackEnv) (frame : Frame) :
    List Rect → IngestState → Except PyErr IngestState
  | [], st => .ok st
  | bb :: rest, st =>
    match scoreList env frame bb st.toRemove st.d with
    | .error e => .error e
    | .ok (rmscore, d1, n) =>
      let doSpawn := ingestLoop env frame rest
        { st with
          toAdd := dictSet st.toAdd st.i (mkTracker frame bb st.i)
          d := d1
          i := st.i + 1
          spawned := st.spawned ++ [st.i]
          probes := st.probes + n }
      match rmscore with
      | [] => doSpawn
      | _ :: _ =>
        if (7 : ℚ) < rmscore.getD (argmaxQ rmscore) 0 then
          match st.toRemove.get? (argmaxQ rmscore) with
          | none => .error .keyError
          | some idrm =>
            ingestLoop env frame rest
              { st with
                toRemove := st.toRemove.erase idrm
                toAdd := dictSet st.toAdd idrm (mkTracker frame bb idrm)
                d := d1
                rebound := st.rebound ++ [idrm]
                probes := st.probes + n }
        else doSpawn

/-- Result of a reconciliation pass: the new registry state and the pass's
ghost observations. -/
structure IngestResult where
  s : TrackerList
  rebound : List ℕ
  spawned : List ℕ
  probes : ℕ
  deriving DecidableEq, Repr

/-- `TrackerList.ingest_detection(frame, lbox)`: snapshot
`to_remove = list(self.d)`, start with an empty `to_add`, run the loop,
then replace the live dict wholesale (`self.d = to_add`). -/
def TrackerList.ingest_detection (env : TrackEnv) (s : TrackerList)
    (frame : Frame) (lbox : List Rect) : Except PyErr IngestResult :=
  match ingestLoop env frame lbox ⟨dictKeys s.d, [], s.d, s.i, [], [], 0⟩ with
  | .error e => .error e
  | .ok st => .ok ⟨⟨st.toAdd, st.i⟩, st.rebound, st.spawned, st.probes⟩

/-- The dict of fresh trackers a run of consecutive spawns produces:
ids `i, i+1, ...`, one per detection box, each tracker started at its
box. -/
def spawnRun (frame : Frame) : ℕ → List Rect → Dict
  | _, [] => []
  | i, bb :: rest => (i, mkTracker frame bb i) :: spawnRun frame (i + 1) rest

/-- The loop state after one spawning iteration of `ingestLoop` (the
`else` branch of the pass, which `ingestLoop` in fact always takes). -/
def spawnStep (frame : Frame) (bb : Rect) (st : IngestState) : IngestState :=
  { st with
    toAdd := dictSet st.toAdd st.i (mkTracker frame bb st.i)
    i := st.i + 1
    spawned := st.spawned ++ [st.i] }

/-- The loop state after spawning every box of `lbox` in turn. -/
def spawnFinal (frame : Frame) (lbox : List Rect) (st : IngestState) : IngestState :=
  { st with
    toAdd := st.toAdd ++ spawnRun frame st.i lbox
    i := st.i + lbox.length
    spawned := st.spawned ++ List.range' st.i lbox.length }

/-- A sequence of reconcile passes from a registry state: folds
`ingest_detection` over `(frame, detections)` pairs, concatenating the
spawned-id logs. -/
def runIngest (env : TrackEnv) : List (Frame × List Rect) → TrackerList →
    Except PyErr (TrackerList × List ℕ)
  | [], s => .ok (s, [])
  | (f, l) :: rest, s =>
    match TrackerList.ingest_detection env s f l with
    | .error e => .error e
    | .ok r =>
      match runIngest env rest r.s with
      | .error e => .error e
      | .ok (s2, log) => .ok (s2, r.spawned ++ log)

/-- State of a `TrackerDetector`: the external detector (boxes with
confidences), the detection period, the owned `TrackerList` and the frame
counter `self.iframe`. -/
structure TrackerDetector where
  detector : Frame → List (Rect × ℚ)
  detection_period : ℕ
  tl : TrackerList
  iframe : ℕ

/-- One emitted record: `((left, top, right, bottom), faceid)`. -/
abbrev Emitted := (ℤ × ℤ × ℤ × ℤ) × ℕ

/-- `TrackerDetector.__call__(frame)`.  Its first statement is
`tl.update(frame)`, and no name `tl` is in scope (the attribute is
`self.tl`), so every call raises `NameError` immediately; the rest of the
body (which would also fault on `self.face_detector`, the attribute being
`self.detector`) is unreachable. -/
def TrackerDetector.call (_td : TrackerDetector) (_frame : Frame) :
    Except PyErr (List Emitted × TrackerDetector) :=
  .error .nameError

/-- The body of `TrackerDetector.__call__` with its two undefined-name
slips repaired (`tl` → `self.tl`, `self.face_detector` → `self.detector`),
to document the evident intent; no claim is settled against it alone:

```
self.tl.update(frame)
if self.iframe % self.detection_period:
    detected_faces = [dlib.rectangle(...) for e in self.detector(frame)]
    self.tl.ingest_detection(frame, detected_faces)
lret = []
for faceid in self.tl.d:
    bb = self.tl.d[faceid].t.get_position()
    lret.append(((bb.left(), bb.top(), bb.right(), bb.bottom()), faceid))
self.iframe += 1
return lret
```

(`iframe % detection_period` with a zero period would raise
`ZeroDivisionError` in Python, modelled faithfully). -/
def emitRecords (tl : TrackerList) : List Emitted :=
  tl.d.map (fun kv =>
    ((kv.2.pos.left, kv.2.pos.top, kv.2.pos.right, kv.2.pos.bottom), kv.1))

def TrackerDetector.callRepaired (env : TrackEnv) (td : TrackerDetector)
    (frame : Frame) : Except PyErr (List Emitted × TrackerDetector) :=
  match TrackerList.update env td.tl frame with
  | .error e => .error e
  | .ok tl1 =>
    if td.detection_period = 0 then .error .zeroDivisionError
    else if td.iframe % td.detection_period ≠ 0 then
      match TrackerList.ingest_detection env tl1 frame
        ((td.detector frame).map Prod.fst) with
      | .error e => .error e
      | .ok r => .ok (emitRecords r.s, { td with tl := r.s, iframe := td.iframe + 1 })
    else .ok (emitRecords tl1, { td with tl := tl1, iframe := td.iframe + 1 })

/-- Modelled from the spec: `iou = intersection / (areaA + areaB -
intersection)`, the standard intersection-over-union the spec states for
`overlapRatio`/`iou` (compared against the code's `Tracker.iou`). -/
def iouSpec (a b : Rect) : ℚ :=
  ((Rect.intersect a b).area : ℚ) /
    ((a.area : ℚ) + (b.area : ℚ) - ((Rect.intersect a b).area : ℚ))

/-! Concrete instances used to evaluate the embedded code at specific
inputs (counterexamples, failing inputs, witnesses). -/

/-- A 10x10 box at the origin (inclusive corners (0,0)-(9,9), area 100). -/
def bb1 : Rect := ⟨0, 0, 9, 9⟩

/-- A 10x10 box overlapping `bb1` on 81 pixels: true IoU 81/119 > 1/2. -/
def bb2 : Rect := ⟨1, 1, 10, 10⟩

/-- A default-constructed `dlib.rectangle()`: empty, area 0. -/
def rectEmpty : Rect := ⟨0, 0, -1, -1⟩

/-- A box lying entirely outside any small frame. -/
def rectOutside : Rect := ⟨100, 100, 110, 110⟩

/-- A one-pixel frame (numpy truthiness of comparisons against it is
defined). -/
def frameA : Frame := ⟨0, 1, 1, 1, [0]⟩

/-- Another one-pixel frame, with different contents and identity. -/
def frameB : Frame := ⟨1, 1, 1, 1, [5]⟩

/-- A two-pixel frame: numpy elementwise comparison against any same-shaped
frame (itself included) has no boolean truth value. -/
def frameBig : Frame := ⟨2, 2, 1, 1, [3, 4]⟩

/-- A benign tracking environment: propagation keeps the box at `bb1` with
quality 9, probes report 9. -/
def env0 : TrackEnv := ⟨fun _ _ => (bb1, 9), fun _ _ _ => 9⟩

/-- Environment whose propagation moves every track to `rectOutside` with
quality 9 (the claim C5 scenario: healthy score, box fully off-frame). -/
def envOut : TrackEnv := ⟨fun _ _ => (rectOutside, 9), fun _ _ _ => 0⟩

/-- Environment whose propagation reports quality 5 (below threshold), so
the per-frame pass retires every track before reading `is_in_frame`. -/
def envLow : TrackEnv := ⟨fun _ _ => (bb1, 5), fun _ _ _ => 0⟩

/-- Environment whose probe would report 9 against `bb1` and 8 against any
other box (the claim C4 scenario's mocked `probeAndRebind`). -/
def envPref : TrackEnv :=
  ⟨fun _ _ => (bb1, 9), fun _ _ bb => if bb = bb1 then 9 else 8⟩

/-- A tracker bound to `bb1` on `frameA` (fresh, id 0). -/
def trOne : Tracker := mkTracker frameA bb1 0

/-- A tracker with a memoized quality 9 whose `last_frame` is the two-pixel
`frameBig`. -/
def trMemo : Tracker :=
  { last_frame := frameBig, pos := bb1, tid := 0, update_val := some 9 }

/-- A tracker whose dlib position is the empty rectangle. -/
def trEmpty : Tracker := mkTracker frameA rectEmpty 0

/-- `trOne` after `envOut` propagation on `frameB`. -/
def trOutside : Tracker :=
  { last_frame := frameB, pos := rectOutside, tid := 0, update_val := some 9 }

/-- A registry holding the single live track `trOne` under id 0. -/
def sOne : TrackerList := ⟨[(0, trOne)], 1⟩

/-- A scheduler on a detection frame (`iframe = 1`, period 3) owning
`sOne`. -/
def tdOne : TrackerDetector := ⟨fun _ => [(bb1, 9 / 10)], 3, sOne, 1⟩

/-- Result of the C2 witness pass: `bb2` ingested into `sOne`. -/
def rPassC2 : IngestResult := ⟨⟨[(1, mkTracker frameB bb2 1)], 2⟩, [], [1], 0⟩

/-- Result of the C10 witness pass: `bb1` ingested into `sOne`. -/
def rPassC10 : IngestResult := ⟨⟨[(1, mkTracker frameB bb1 1)], 2⟩, [], [1], 0⟩

/-- Result of the C4 scenario pass: `bb1` then `bb2` ingested into `sOne`;
both spawn, the live track is discarded, no probe runs. -/
def rPassC4 : IngestResult :=
  ⟨⟨[(1, mkTracker frameB bb1 1), (2, mkTracker frameB bb2 2)], 3⟩, [], [1, 2], 0⟩

/-- The two-pass run of the C3 witness. -/
def stepsC3 : List (Frame × List Rect) := [(frameA, [bb1]), (frameB, [bb2, bb1])]

/-- Final registry of the C3 witness run. -/
def sEndC3 : TrackerList := ⟨[(1, mkTracker frameB bb2 1), (2, mkTracker frameB bb1 2)], 3⟩

/-! Geometry lemmas about dlib rectangles. -/

/-- dlib widths are nonnegative. -/
theorem Rect.width_nonneg (x : Rect) : 0 ≤ x.width := by
  unfold Rect.width Rect.isEmpty
  split
  · exact le_refl 0
  · next h =>
    simp only [Bool.or_eq_true, decide_eq_true_eq, not_or] at h
    omega

/-- dlib heights are nonnegative. -/
theorem Rect.height_nonneg (x : Rect) : 0 ≤ x.height := by
  unfold Rect.height Rect.isEmpty
  split
  · exact le_refl 0
  · next h =>
    simp only [Bool.or_eq_true, decide_eq_true_eq, not_or] at h
    omega

/-- dlib areas are nonnegative. -/
theorem Rect.area_nonneg (x : Rect) : 0 ≤ x.area :=
  mul_nonneg x.width_nonneg x.height_nonneg

/-- The intersection's width is at most either width. -/
theorem Rect.width_intersect_le_left (x y : Rect) : (x.intersect y).width ≤ x.width := by
  unfold Rect.width Rect.intersect Rect.isEmpty
  simp only [Bool.or_eq_true, decide_eq_true_eq]
  split_ifs <;> omega

/-- The intersection's height is at most either height. -/
theorem Rect.height_intersect_le_left (x y : Rect) : (x.intersect y).height ≤ x.height := by
  unfold Rect.height Rect.intersect Rect.isEmpty
  simp only [Bool.or_eq_true, decide_eq_true_eq]
  split_ifs <;> omega

/-- The intersection area is at most the first box's area. -/
theorem Rect.area_intersect_le_left (x y : Rect) : (x.intersect y).area ≤ x.area :=
  mul_le_mul (x.width_intersect_le_left y) (x.height_intersect_le_left y)
    (x.intersect y).height_nonneg x.width_nonneg

/-- Intersection is symmetric. -/
theorem Rect.intersect_comm (x y : Rect) : x.intersect y = y.intersect x := by
  unfold Rect.intersect
  simp [max_comm, min_comm]

/-- The intersection area is at most the second box's area. -/
theorem Rect.area_intersect_le_right (x y : Rect) : (x.intersect y).area ≤ y.area := by
  rw [Rect.intersect_comm]
  exact Rect.area_intersect_le_left y x

/-! Lemmas about the code's `iou`. -/

/-- The denominator the code divides by is nonnegative. -/
theorem Tracker.iou_denom_nonneg (tr : Tracker) (bb : Rect) :
    0 ≤ tr.intersect_area bb + tr.pos.area + bb.area := by
  have h1 : 0 ≤ tr.intersect_area bb := Rect.area_nonneg _
  have h2 : 0 ≤ tr.pos.area := Rect.area_nonneg _
  have h3 : 0 ≤ bb.area := Rect.area_nonneg _
  omega

/-- When the code's `iou` returns a value, that value is the quotient
`inter / (inter + trackerArea + boxArea)`. -/
theorem Tracker.iou_ok_val (tr : Tracker) (bb : Rect) (q : ℚ)
    (h : tr.iou bb = .ok q) :
    q = (tr.intersect_area bb : ℚ) /
      ((tr.intersect_area bb : ℚ) + (tr.pos.area : ℚ) + (bb.area : ℚ)) := by
  unfold Tracker.iou at h
  dsimp only at h
  split at h
  · exact absurd h (by simp)
  · simp only [Except.ok.injEq] at h
    rw [← h]
    push_cast
    ring_nf

/-- Any value the code's `iou` returns is at most `1/3`. -/
theorem Tracker.iou_ok_le_third (tr : Tracker) (bb : Rect) (q : ℚ)
    (h : tr.iou bb = .ok q) : q ≤ 1 / 3 := by
  have hden : tr.intersect_area bb + tr.pos.area + bb.area ≠ 0 := by
    unfold Tracker.iou at h
    dsimp only at h
    split at h
    · exact absurd h (by simp)
    · assumption
  have hpos : (0 : ℤ) < tr.intersect_area bb + tr.pos.area + bb.area :=
    lt_of_le_of_ne (Tracker.iou_denom_nonneg tr bb) (Ne.symm hden)
  have hib : tr.intersect_area bb ≤ bb.area := Rect.area_intersect_le_left _ _
  have hit : tr.intersect_area bb ≤ tr.pos.area := Rect.area_intersect_le_right _ _
  have hi0 : 0 ≤ tr.intersect_area bb := Rect.area_nonneg _
  rw [Tracker.iou_ok_val tr bb q h]
  rw [div_le_div_iff₀ (by exact_mod_cast hpos) (by norm_num)]
  have : (tr.intersect_area bb : ℚ) ≤ (tr.pos.area : ℚ) := by exact_mod_cast hit
  have : (tr.intersect_area bb : ℚ) ≤ (bb.area : ℚ) := by exact_mod_cast hib
  nlinarith

/-- Hence the reconciliation guard `iou(bb) > 0.5` never holds. -/
theorem Tracker.iou_ok_not_half (tr : Tracker) (bb : Rect) (q : ℚ)
    (h : tr.iou bb = .ok q) : ¬ ((1 / 2 : ℚ) < q) := by
  have := Tracker.iou_ok_le_third tr bb q h
  intro hc
  linarith

/-- A nonzero denominator makes the code's `iou` return normally. -/
theorem Tracker.iou_eq_ok (tr : Tracker) (bb : Rect)
    (h : tr.intersect_area bb + tr.pos.area + bb.area ≠ 0) :
    tr.iou bb = .ok ((tr.intersect_area bb : ℚ) /
      ((tr.intersect_area bb + tr.pos.area + bb.area : ℤ) : ℚ)) := by
  unfold Tracker.iou
  simp only [h, if_false, reduceIte]

/-! Lemmas about the dict operations. -/

/-- A successful lookup is a binding of the dict. -/
theorem dictGet_mem {d : Dict} {k : ℕ} {tr : Tracker}
    (h : dictGet d k = some tr) : (k, tr) ∈ d := by
  induction d with
  | nil => simp [dictGet] at h
  | cons kv rest ih =>
    rw [dictGet] at h
    split at h
    · next heq =>
      simp only [Option.some.injEq] at h
      subst h; subst heq
      exact List.mem_cons_self _ _
    · right; exact ih h

/-- A key of the dict looks up successfully. -/
theorem dictGet_isSome_of_mem_keys {d : Dict} {k : ℕ} (h : k ∈ dictKeys d) :
    ∃ tr, dictGet d k = some tr := by
  induction d with
  | nil => simp [dictKeys] at h
  | cons kv rest ih =>
    rw [dictKeys] at h
    simp only [List.map_cons, List.mem_cons] at h
    rw [dictGet]
    by_cases hk : kv.1 = k
    · exact ⟨kv.2, by simp [hk]⟩
    · cases h with
      | inl h0 => exact absurd h0.symm hk
      | inr h0 =>
        obtain ⟨tr, htr⟩ := ih h0
        exact ⟨tr, by simp [hk, htr]⟩

/-- Writing a fresh key appends the binding (Python dict insertion order). -/
theorem dictSet_fresh {d : Dict} {k : ℕ} (v : Tracker) (h : k ∉ dictKeys d) :
    dictSet d k v = d ++ [(k, v)] := by
  induction d with
  | nil => rfl
  | cons kv rest ih =>
    rw [dictKeys] at h
    simp only [List.map_cons, List.mem_cons, not_or] at h
    rw [dictSet, if_neg (fun hh => h.1 hh.symm)]
    show (kv.1, kv.2) :: dictSet rest k v = kv :: (rest ++ [(k, v)])
    rw [ih (by rw [dictKeys]; exact h.2)]

/-- The keys of the all-spawn dict are the consecutive fresh ids. -/
theorem dictKeys_spawnRun (frame : Frame) (i : ℕ) (lbox : List Rect) :
    dictKeys (spawnRun frame i lbox) = List.range' i lbox.length := by
  induction lbox generalizing i with
  | nil => rfl
  | cons bb rest ih =>
    rw [spawnRun, dictKeys]
    simp only [List.map_cons, List.length_cons, List.range'_succ]
    rw [← dictKeys, ih]

/-- `getD` on an all-zero list is zero whatever the index. -/
theorem getD_replicate_zero (n i : ℕ) : (List.replicate n (0 : ℚ)).getD i 0 = 0 := by
  rcases Nat.lt_or_ge i n with h | h
  · simp [List.getD, List.getElem?_replicate, h]
  · simp [List.getD, List.getElem?_eq_none, h, List.length_replicate]

/-! The reconciliation pass only ever spawns: every candidate score is `0`
because the code's `iou` never exceeds `1/3 < 0.5`. -/

/-- Every successful `rmscore` comprehension yields only zeros, leaves the
dict unchanged, and never invokes the mutating probe. -/
theorem scoreList_zeros (env : TrackEnv) (frame : Frame) (bb : Rect) :
    ∀ (ks : List ℕ) (d : Dict) (scores : List ℚ) (d2 : Dict) (n : ℕ),
    scoreList env frame bb ks d = .ok (scores, d2, n) →
    scores = List.replicate ks.length 0 ∧ d2 = d ∧ n = 0
  | [], d, scores, d2, n => by
    intro h
    rw [scoreList] at h
    simp only [Except.ok.injEq, Prod.mk.injEq] at h
    exact ⟨h.1.symm, h.2.1.symm, h.2.2.symm⟩
  | k :: ks, d, scores, d2, n => by
    intro h
    rw [scoreList] at h
    split at h
    · exact absurd h (by simp)
    · split at h
      · exact absurd h (by simp)
      · next v hiou =>
        rw [if_neg (Tracker.iou_ok_not_half _ _ _ hiou)] at h
        split at h
        · exact absurd h (by simp)
        · next rest d1 m hrec =>
          simp only [Except.ok.injEq, Prod.mk.injEq] at h
          obtain ⟨hs, hd, hn⟩ := h
          obtain ⟨h1, h2, h3⟩ := scoreList_zeros env frame bb ks d rest d1 m hrec
          subst hs hd hn h1 h2 h3
          exact ⟨by rw [List.length_cons, List.replicate_succ], rfl, rfl⟩

/-- Constructive evaluation of the `rmscore` comprehension: when every
pool key is live and no denominator degenerates, it returns all zeros. -/
theorem scoreList_eval (env : TrackEnv) (frame : Frame) (bb : Rect) :
    ∀ (ks : List ℕ) (d : Dict),
    (∀ k ∈ ks, k ∈ dictKeys d) →
    (∀ kv ∈ d, kv.2.intersect_area bb + kv.2.pos.area + bb.area ≠ 0) →
    scoreList env frame bb ks d = .ok (List.replicate ks.length 0, d, 0)
  | [], _, _, _ => by rw [scoreList]; rfl
  | k :: ks, d, hks, hden => by
    obtain ⟨tr, hget⟩ := dictGet_isSome_of_mem_keys (hks k (List.mem_cons_self k ks))
    have hden1 : tr.intersect_area bb + tr.pos.area + bb.area ≠ 0 :=
      hden (k, tr) (dictGet_mem hget)
    have hiou := Tracker.iou_eq_ok tr bb hden1
    have hnot := Tracker.iou_ok_not_half tr bb _ hiou
    have hrec := scoreList_eval env frame bb ks d
      (fun x hx => hks x (List.mem_cons_of_mem k hx)) hden
    rw [scoreList]
    simp only [hget, hiou, hrec, if_neg hnot]
    rw [List.length_cons, List.replicate_succ]

/-- One iteration of `ingestLoop` on a detection whose score comprehension
returns all zeros takes the spawn branch. -/
theorem ingestLoop_cons_spawn (env : TrackEnv) (frame : Frame) (bb : Rect)
    (rest : List Rect) (st : IngestState)
    (hscore : scoreList env frame bb st.toRemove st.d =
      .ok (List.replicate st.toRemove.length 0, st.d, 0)) :
    ingestLoop env frame (bb :: rest) st =
      ingestLoop env frame rest (spawnStep frame bb st) := by
  rw [ingestLoop]
  simp only [hscore]
  cases hlen : st.toRemove.length with
  | zero => rfl
  | succ m =>
    rw [List.replicate_succ]
    dsimp only
    have hz : ((0 : ℚ) :: List.replicate m 0).getD
        (argmaxQ ((0 : ℚ) :: List.replicate m 0)) 0 = 0 := by
      rw [← List.replicate_succ]
      exact getD_replicate_zero (m + 1) _
    rw [hz, if_neg (by norm_num)]
    rfl

/-- Peeling one spawn off the accumulated final state. -/
theorem spawnFinal_cons (frame : Frame) (bb : Rect) (rest : List Rect)
    (st : IngestState) (hfresh : st.i ∉ dictKeys st.toAdd) :
    spawnFinal frame rest (spawnStep frame bb st) = spawnFinal frame (bb :: rest) st := by
  unfold spawnFinal spawnStep
  rw [dictSet_fresh _ hfresh]
  simp only [List.append_assoc, List.length_cons, List.range'_succ]
  rw [show st.i + 1 + rest.length = st.i + (rest.length + 1) from by omega]
  rfl

/-- Freshness of the next id against the under-construction dict. -/
theorem spawnStep_fresh {st : IngestState} (hAdd : ∀ k ∈ dictKeys st.toAdd, k < st.i) :
    st.i ∉ dictKeys st.toAdd :=
  fun hmem => absurd (hAdd st.i hmem) (lt_irrefl st.i)

/-- The bound on constructed keys is preserved by a spawn step. -/
theorem spawnStep_bound {frame : Frame} {bb : Rect} {st : IngestState}
    (hAdd : ∀ k ∈ dictKeys st.toAdd, k < st.i) :
    ∀ k ∈ dictKeys (spawnStep frame bb st).toAdd, k < (spawnStep frame bb st).i := by
  intro k hk
  unfold spawnStep at hk ⊢
  rw [dictSet_fresh _ (spawnStep_fresh hAdd)] at hk
  unfold dictKeys at hk
  simp only [List.map_append, List.mem_append] at hk
  cases hk with
  | inl h0 => exact Nat.lt_succ_of_lt (hAdd k h0)
  | inr h0 =>
    simp only [List.map_cons, List.map_nil, List.mem_singleton] at h0
    subst h0
    exact Nat.lt_succ_self st.i

/-- Whenever `ingestLoop` returns normally, it took the spawn branch at
every detection: the pool, live dict, rebound log and probe count are
untouched, and the final state is the pure spawn accumulation. -/
theorem ingestLoop_spec (env : TrackEnv) (frame : Frame) :
    ∀ (lbox : List Rect) (st st2 : IngestState),
    ingestLoop env frame lbox st = .ok st2 →
    (∀ k ∈ dictKeys st.toAdd, k < st.i) →
    st2 = spawnFinal frame lbox st
  | [], st, st2, h, _ => by
    rw [ingestLoop] at h
    simp only [Except.ok.injEq] at h
    subst h
    unfold spawnFinal
    simp [spawnRun]
  | bb :: rest, st, st2, h, hAdd => by
    cases hscore : scoreList env frame bb st.toRemove st.d with
    | error e =>
      rw [ingestLoop] at h
      rw [hscore] at h
      exact absurd h (by simp)
    | ok trip =>
      obtain ⟨rmscore, d1, n⟩ := trip
      obtain ⟨hz, hd, hn⟩ := scoreList_zeros env frame bb st.toRemove st.d rmscore d1 n hscore
      subst hz hd hn
      rw [ingestLoop_cons_spawn env frame bb rest st hscore] at h
      have ih := ingestLoop_spec env frame rest (spawnStep frame bb st) st2 h
        (spawnStep_bound hAdd)
      rw [ih, spawnFinal_cons frame bb rest st (spawnStep_fresh hAdd)]

/-- Constructive counterpart: when no denominator in the pass degenerates,
`ingestLoop` returns normally with the pure spawn accumulation. -/
theorem ingestLoop_eval (env : TrackEnv) (frame : Frame) :
    ∀ (lbox : List Rect) (st : IngestState),
    (∀ k ∈ st.toRemove, k ∈ dictKeys st.d) →
    (∀ bb ∈ lbox, ∀ kv ∈ st.d, kv.2.intersect_area bb + kv.2.pos.area + bb.area ≠ 0) →
    (∀ k ∈ dictKeys st.toAdd, k < st.i) →
    ingestLoop env frame lbox st = .ok (spawnFinal frame lbox st)
  | [], st, _, _, _ => by
    rw [ingestLoop]
    unfold spawnFinal
    simp [spawnRun]
  | bb :: rest, st, hks, hden, hAdd => by
    have hscore := scoreList_eval env frame bb st.toRemove st.d hks
      (hden bb (List.mem_cons_self bb rest))
    rw [ingestLoop_cons_spawn env frame bb rest st hscore]
    have ih := ingestLoop_eval env frame rest (spawnStep frame bb st)
      (by unfold spawnStep; exact hks)
      (by unfold spawnStep; exact fun b hb => hden b (List.mem_cons_of_mem bb hb))
      (spawnStep_bound hAdd)
    rw [ih, spawnFinal_cons frame bb rest st (spawnStep_fresh hAdd)]

/-- Whenever `ingest_detection` returns normally, the pass spawned a fresh
track per detection (consecutive ids from the counter), rebound nothing,
never invoked the mutating probe, and replaced the live dict wholesale with
the spawned tracks. -/
theorem ingest_ok_spec (env : TrackEnv) (s : TrackerList) (frame : Frame)
    (lbox : List Rect) (r : IngestResult)
    (h : TrackerList.ingest_detection env s frame lbox = .ok r) :
    r = ⟨⟨spawnRun frame s.i lbox, s.i + lbox.length⟩, [],
      List.range' s.i lbox.length, 0⟩ := by
  rw [TrackerList.ingest_detection] at h
  cases hloop : ingestLoop env frame lbox ⟨dictKeys s.d, [], s.d, s.i, [], [], 0⟩ with
  | error e => rw [hloop] at h; exact absurd h (by simp)
  | ok st2 =>
    rw [hloop] at h
    simp only [Except.ok.injEq] at h
    have hspec := ingestLoop_spec env frame lbox _ st2 hloop (by simp [dictKeys])
    subst hspec
    rw [← h]
    rfl

/-- Constructive counterpart of `ingest_ok_spec`. -/
theorem ingest_eval (env : TrackEnv) (s : TrackerList) (frame : Frame)
    (lbox : List Rect)
    (hden : ∀ bb ∈ lbox, ∀ kv ∈ s.d, kv.2.intersect_area bb + kv.2.pos.area + bb.area ≠ 0) :
    TrackerList.ingest_detection env s frame lbox =
      .ok ⟨⟨spawnRun frame s.i lbox, s.i + lbox.length⟩, [],
        List.range' s.i lbox.length, 0⟩ := by
  rw [TrackerList.ingest_detection]
  rw [ingestLoop_eval env frame lbox ⟨dictKeys s.d, [], s.d, s.i, [], [], 0⟩
    (fun k hk => hk) hden (by simp [dictKeys])]
  rfl

/-- Two consecutive blocks of fresh ids concatenate. -/
theorem range'_append_eq (s m n : ℕ) :
    List.range' s m ++ List.range' (s + m) n = List.range' s (m + n) := by
  have := List.range'_append s m n 1
  simp only [one_mul, Nat.mul_one] at this
  rw [Nat.add_comm n m] at this
  simpa using this

/-- Splitting a sequence of reconcile passes. -/
theorem runIngest_append (env : TrackEnv) :
    ∀ (pre post : List (Frame × List Rect)) (s : TrackerList),
    runIngest env (pre ++ post) s =
      match runIngest env pre s with
      | .error e => .error e
      | .ok (s1, log1) =>
        match runIngest env post s1 with
        | .error e => .error e
        | .ok (s2, log2) => .ok (s2, log1 ++ log2)
  | [], post, s => by
    simp only [List.nil_append, runIngest]
    cases h : runIngest env post s with
    | error e => rfl
    | ok p => obtain ⟨s2, log2⟩ := p; simp
  | (f, l) :: pre, post, s => by
    rw [List.cons_append, runIngest, runIngest]
    cases h1 : TrackerList.ingest_detection env s f l with
    | error e => rfl
    | ok r =>
      dsimp only
      rw [runIngest_append env pre post r.s]
      cases h2 : runIngest env pre r.s with
      | error e => rfl
      | ok p =>
        obtain ⟨s1, log1⟩ := p
        dsimp only
        cases h3 : runIngest env post s1 with
        | error e => rfl
        | ok q =>
          obtain ⟨s2, log2⟩ := q
          dsimp only
          rw [List.append_assoc]

/-- Trace invariants of a sequence of reconcile passes: the spawn log is
the consecutive block of ids the counter traversed, live keys stay below
the counter and duplicate-free, and an id that is below the counter but
not live can never become live again. -/
theorem runIngest_spec (env : TrackEnv) :
    ∀ (steps : List (Frame × List Rect)) (s s2 : TrackerList) (log : List ℕ),
    runIngest env steps s = .ok (s2, log) →
    (∀ k ∈ dictKeys s.d, k < s.i) →
    (dictKeys s.d).Nodup →
    log = List.range' s.i (s2.i - s.i) ∧ s.i ≤ s2.i ∧
      (∀ k ∈ dictKeys s2.d, k < s2.i) ∧ (dictKeys s2.d).Nodup ∧
      (∀ k, k < s.i → k ∉ dictKeys s.d → k ∉ dictKeys s2.d)
  | [], s, s2, log, h, hwf, hnd => by
    rw [runIngest] at h
    simp only [Except.ok.injEq, Prod.mk.injEq] at h
    obtain ⟨hs, hl⟩ := h
    subst hs hl
    exact ⟨by simp, le_refl _, hwf, hnd, fun k _ hk => hk⟩
  | (f, l) :: rest, s, s2, log, h, hwf, hnd => by
    rw [runIngest] at h
    cases hing : TrackerList.ingest_detection env s f l with
    | error e => rw [hing] at h; exact absurd h (by simp)
    | ok r =>
      rw [hing] at h
      have hr := ingest_ok_spec env s f l r hing
      subst hr
      dsimp only at h
      cases hrun : runIngest env rest ⟨spawnRun f s.i l, s.i + l.length⟩ with
      | error e => rw [hrun] at h; exact absurd h (by simp)
      | ok p =>
        obtain ⟨s3, log2⟩ := p
        rw [hrun] at h
        simp only [Except.ok.injEq, Prod.mk.injEq] at h
        obtain ⟨hs3, hlog⟩ := h
        subst hs3 hlog
        have hwf1 : ∀ k ∈ dictKeys (spawnRun f s.i l), k < s.i + l.length := by
          intro k hk
          rw [dictKeys_spawnRun, List.mem_range'_1] at hk
          omega
        have hnd1 : (dictKeys (spawnRun f s.i l)).Nodup := by
          rw [dictKeys_spawnRun]; exact List.nodup_range' s.i l.length
        obtain ⟨hlog2, hle, hbound, hnodup, hdead⟩ :=
          runIngest_spec env rest _ s3 log2 hrun hwf1 hnd1
        dsimp only at hlog2 hle hbound hnodup hdead
        refine ⟨?_, by omega, hbound, hnodup, ?_⟩
        · rw [hlog2]
          rw [show s3.i - s.i = l.length + (s3.i - (s.i + l.length)) from by omega]
          exact range'_append_eq s.i l.length (s3.i - (s.i + l.length))
        · intro k hk hkd
          refine hdead k (by omega) ?_
          rw [dictKeys_spawnRun, List.mem_range'_1]
          omega

/-- Every spawned tracker is stored under its own id. -/
theorem spawnRun_tid (frame : Frame) :
    ∀ (i : ℕ) (lbox : List Rect) (kv : ℕ × Tracker),
    kv ∈ spawnRun frame i lbox → kv.2.tid = kv.1
  | _, [], kv => by intro h; exact absurd h (List.not_mem_nil kv)
  | i, bb :: rest, kv => by
    intro h
    rw [spawnRun] at h
    cases h with
    | head => rfl
    | tail _ h0 => exact spawnRun_tid frame (i + 1) rest kv h0

/-! Claim theorems. -/

/-- Claim C1 (code_bug evidence).  The code's own comment calls
`Tracker.iou` "intersection over union", but on a tracker and a detection
occupying the *same* 10x10 box the method returns `1/3`, not `1`: its
denominator adds the intersection to the two areas instead of subtracting
it.  The spec's `iouSpec` (intersection over union proper) gives `1` on the
same input. -/
theorem iou_on_identical_boxes :
    Tracker.iou trOne bb1 = .ok (1 / 3) ∧ iouSpec bb1 bb1 = 1 ∧ ((1 : ℚ) / 3) ≠ 1 := by
  refine ⟨?_, ?_, by norm_num⟩
  · have h := Tracker.iou_eq_ok trOne bb1 (by decide)
    rw [show trOne.intersect_area bb1 = 100 from by decide,
      show trOne.pos.area = 100 from by decide,
      show bb1.area = 100 from by decide] at h
    rw [h]
    simp only [Except.ok.injEq]
    norm_num
  · unfold iouSpec
    rw [show (Rect.intersect bb1 bb1).area = 100 from by decide,
      show bb1.area = 100 from by decide]
    norm_num

/-- Claim C4 (code_bug evidence).  The claimed scenario: one live track at
`bb1`, detections `bb1` then `bb2`, both overlapping the track above `0.5`
*true* IoU, with mocked probe qualities 9 and 8.  The claim says `bb1`
claims the track (keeping id 0) and `bb2` spawns one new track.  The code
instead computes its capped `iou` (at most `1/3`) for both, never probes,
spawns fresh tracks 1 and 2, and discards track 0. -/
theorem greedy_match_never_fires :
    TrackerList.ingest_detection envPref sOne frameB [bb1, bb2] = .ok rPassC4 ∧
    (1 / 2 : ℚ) < iouSpec bb1 bb1 ∧ (1 / 2 : ℚ) < iouSpec bb1 bb2 ∧
    0 ∉ dictKeys rPassC4.s.d ∧ rPassC4.probes = 0 := by
  refine ⟨ingest_eval envPref sOne frameB [bb1, bb2] (by decide), ?_, ?_, by decide, rfl⟩
  · unfold iouSpec
    rw [show (Rect.intersect bb1 bb1).area = 100 from by decide,
      show bb1.area = 100 from by decide]
    norm_num
  · unfold iouSpec
    rw [show (Rect.intersect bb1 bb2).area = 81 from by decide,
      show bb1.area = 100 from by decide, show bb2.area = 100 from by decide]
    norm_num

/-- Claim C5 (code_bug evidence).  A registry holds one track; propagation
on the next (one-pixel, so comparable) frame reports quality 9 and moves
the box to `(100,100,110,110)`, entirely outside the 1x1 frame.  The claim
says the per-frame pass must retire the track; the code instead raises
`NameError`, because `is_in_frame` reads the undefined name `frame`.  The
repaired membership test (`is_in_frame_intended`) indeed returns `false`
for the propagated tracker. -/
theorem retirement_out_of_frame_raises :
    TrackerList.update envOut sOne frameB = .error .nameError ∧
    Tracker.update envOut trOne frameB = .ok (trOutside, 9) ∧
    Tracker.is_in_frame_intended trOutside frameB.shape = false :=
  ⟨rfl, rfl, rfl⟩

/-- Claim C6 (code_bug evidence).  `TrackerDetector.__call__` raises
`NameError` on its first statement (`tl.update(frame)`, with no name `tl`
in scope) for every scheduler state and frame: no propagation, no
detection, no counter increment ever happens. -/
theorem scheduler_call_always_raises :
    ∀ (td : TrackerDetector) (frame : Frame),
    TrackerDetector.call td frame = .error .nameError :=
  fun _ _ => rfl

/-- Claim C7 (code_bug evidence).  On a concrete detection frame the
scheduler raises `NameError` and emits nothing; and even with the two
undefined-name slips repaired, the emission is a list of *pairs*
`(box, id)` — no detection confidence, no track quality — contradicting
the claimed 4-tuples (and the fields its caller `GenderTracking` reads). -/
theorem scheduler_emits_no_records :
    TrackerDetector.call tdOne frameB = .error .nameError ∧
    TrackerDetector.callRepaired envLow tdOne frameB =
      .ok ([((0, 0, 9, 9), 1)],
        { tdOne with tl := ⟨[(1, mkTracker frameB bb1 1)], 2⟩, iframe := 2 }) :=
  ⟨rfl, rfl⟩

/-- Claim C8 (code_bug evidence).  A tracker whose `last_frame` is the
two-pixel `frameBig` (with memoized quality 9) is updated with the *same
frame object*: the claim says the memoized value is returned, but numpy's
elementwise `!=` has no boolean truth value on a multi-element array, so
the call raises `ValueError` — for every tracking environment. -/
theorem memoized_update_raises :
    ∀ env : TrackEnv,
    Tracker.update env trMemo frameBig = .error .valueError ∧
      trMemo.update_val = some 9 :=
  fun _ => ⟨rfl, rfl⟩

/-- Claim C9 (counterexample).  On two degenerate (empty, zero-area) boxes
the division in `iou` is *not* guarded: instead of returning `0` the call
raises `ZeroDivisionError`. -/
theorem iou_degenerate_raises :
    Tracker.iou trEmpty rectEmpty = .error .zeroDivisionError :=
  rfl

/-- Claim C9 (amended).  Whenever both the tracker position's area and the
candidate box's area are zero (forcing a zero intersection), `Tracker.iou`
raises `ZeroDivisionError`: the division is unguarded on the degenerate
case. -/
theorem iou_zero_area_unguarded :
    ∀ (tr : Tracker) (bb : Rect), tr.pos.area = 0 → bb.area = 0 →
    Tracker.iou tr bb = .error .zeroDivisionError := by
  intro tr bb ha hb
  have h1 : tr.intersect_area bb ≤ tr.pos.area := Rect.area_intersect_le_right bb tr.pos
  have h2 : 0 ≤ tr.intersect_area bb := Rect.area_nonneg _
  unfold Tracker.iou
  dsimp only
  rw [if_pos (by omega)]

/-- Witness for C9's amended theorem at the degenerate concrete input. -/
theorem iou_zero_area_unguarded_witness :
    trEmpty.pos.area = 0 ∧ rectEmpty.area = 0 ∧
    Tracker.iou trEmpty rectEmpty = .error .zeroDivisionError :=
  ⟨by decide, by decide, iou_zero_area_unguarded trEmpty rectEmpty (by decide) (by decide)⟩

/-- Claim C2 (confirmed).  Reconciliation is destructive: whenever
`ingest_detection` returns on a well-formed registry (live ids below the
counter — an invariant of every reachable registry), the live id set
afterwards is exactly `{rebound this pass} ∪ {spawned this pass}`, and
every id live before the call but claimed by no detection is gone. -/
theorem reconcile_destructive :
    ∀ (env : TrackEnv) (s : TrackerList) (frame : Frame) (lbox : List Rect)
      (r : IngestResult),
    (∀ k ∈ dictKeys s.d, k < s.i) →
    TrackerList.ingest_detection env s frame lbox = .ok r →
    (∀ k, k ∈ dictKeys r.s.d ↔ (k ∈ r.rebound ∨ k ∈ r.spawned)) ∧
    (∀ k ∈ dictKeys s.d, k ∉ r.rebound → k ∉ dictKeys r.s.d) := by
  intro env s frame lbox r hwf h
  have hr := ingest_ok_spec env s frame lbox r h
  subst hr
  constructor
  · intro k
    dsimp only
    rw [dictKeys_spawnRun]
    simp
  · intro k hk _
    dsimp only
    rw [dictKeys_spawnRun, List.mem_range'_1]
    have := hwf k hk
    omega

/-- Witness for C2: one live track (id 0), one detection; after the pass
the live set is exactly the spawned `{1}` and id 0 is gone. -/
theorem reconcile_destructive_witness :
    (∀ k ∈ dictKeys sOne.d, k < sOne.i) ∧
    TrackerList.ingest_detection env0 sOne frameB [bb2] = .ok rPassC2 ∧
    0 ∉ dictKeys rPassC2.s.d := by
  have h1 : ∀ k ∈ dictKeys sOne.d, k < sOne.i := by decide
  have h2 : TrackerList.ingest_detection env0 sOne frameB [bb2] = .ok rPassC2 :=
    ingest_eval env0 sOne frameB [bb2] (by decide)
  exact ⟨h1, h2,
    (reconcile_destructive env0 sOne frameB [bb2] rPassC2 h1 h2).2 0
      (by decide) (by decide)⟩

/-- Claim C3 (confirmed).  Across any sequence of reconcile passes from a
fresh registry: live ids never collide; the ids allocated over the
registry's lifetime are strictly increasing; within any single pass a
rebound track keeps an id that was live before the pass (and every stored
tracker carries its own key as `tid`); and an id that was allocated in the
past but is no longer live never becomes live again. -/
theorem tracker_ids_unique_monotone :
    ∀ (env : TrackEnv) (steps : List (Frame × List Rect)) (s2 : TrackerList)
      (log : List ℕ),
    runIngest env steps TrackerList.init = .ok (s2, log) →
    (dictKeys s2.d).Nodup ∧
    List.Chain' (· < ·) log ∧
    (∀ (s : TrackerList) (f : Frame) (l : List Rect) (r : IngestResult),
      TrackerList.ingest_detection env s f l = .ok r →
      (∀ k ∈ r.rebound, k ∈ dictKeys s.d) ∧ (∀ kv ∈ r.s.d, kv.2.tid = kv.1)) ∧
    (∀ (pre post : List (Frame × List Rect)) (s1 : TrackerList) (log1 : List ℕ),
      steps = pre ++ post →
      runIngest env pre TrackerList.init = .ok (s1, log1) →
      ∀ k, k < s1.i → k ∉ dictKeys s1.d → k ∉ dictKeys s2.d) := by
  intro env steps s2 log h
  have hinit1 : ∀ k ∈ dictKeys TrackerList.init.d, k < TrackerList.init.i := by
    intro k hk
    exact absurd hk (List.not_mem_nil k)
  have hinit2 : (dictKeys TrackerList.init.d).Nodup := List.nodup_nil
  obtain ⟨hlog, hle, hbound, hnodup, hdead⟩ :=
    runIngest_spec env steps _ s2 log h hinit1 hinit2
  refine ⟨hnodup, ?_, ?_, ?_⟩
  · rw [hlog]
    exact (List.pairwise_lt_range' _ _ 1 Nat.one_pos).chain'
  · intro s f l r hing
    have hr := ingest_ok_spec env s f l r hing
    subst hr
    constructor
    · intro k hk
      exact absurd hk (List.not_mem_nil k)
    · intro kv hkv
      exact spawnRun_tid f s.i l kv hkv
  · intro pre post s1 log1 hsplit hpre k hki hkd
    subst hsplit
    rw [runIngest_append env pre post TrackerList.init, hpre] at h
    dsimp only at h
    cases hpost : runIngest env post s1 with
    | error e => rw [hpost] at h; exact absurd h (by simp)
    | ok q =>
      obtain ⟨s4, log4⟩ := q
      rw [hpost] at h
      dsimp only at h
      simp only [Except.ok.injEq, Prod.mk.injEq] at h
      obtain ⟨hs4, -⟩ := h
      obtain ⟨-, -, hb1, hn1, -⟩ := runIngest_spec env pre _ s1 log1 hpre hinit1 hinit2
      obtain ⟨-, -, -, -, hdead2⟩ := runIngest_spec env post s1 s4 log4 hpost hb1 hn1
      exact hs4 ▸ hdead2 k hki hkd

/-- Witness for C3: a two-pass run (one detection, then two) allocates ids
`0`, then `1, 2`, a strictly increasing log. -/
theorem tracker_ids_unique_monotone_witness :
    runIngest env0 stepsC3 TrackerList.init = .ok (sEndC3, [0, 1, 2]) ∧
    List.Chain' (· < ·) [0, 1, 2] := by
  have e1 : TrackerList.ingest_detection env0 TrackerList.init frameA [bb1] =
      .ok ⟨⟨spawnRun frameA 0 [bb1], 0 + 1⟩, [], List.range' 0 1, 0⟩ :=
    ingest_eval env0 TrackerList.init frameA [bb1] (by decide)
  have e2 : TrackerList.ingest_detection env0 ⟨spawnRun frameA 0 [bb1], 0 + 1⟩
      frameB [bb2, bb1] =
      .ok ⟨⟨spawnRun frameB (0 + 1) [bb2, bb1], 0 + 1 + 2⟩, [],
        List.range' (0 + 1) 2, 0⟩ :=
    ingest_eval env0 ⟨spawnRun frameA 0 [bb1], 0 + 1⟩ frameB [bb2, bb1] (by decide)
  have h : runIngest env0 stepsC3 TrackerList.init = .ok (sEndC3, [0, 1, 2]) := by
    show runIngest env0 ((frameA, [bb1]) :: (frameB, [bb2, bb1]) :: [])
      TrackerList.init = .ok (sEndC3, [0, 1, 2])
    rw [runIngest, e1]
    dsimp only
    rw [runIngest, e2]
    dsimp only
    rw [runIngest]
    rfl
  exact ⟨h, (tracker_ids_unique_monotone env0 stepsC3 sEndC3 [0, 1, 2] h).2.1⟩

/-- Claim C10 (confirmed, implicit).  The value `Tracker.iou` returns is
`inter / (inter + trackerArea + boxArea)`, which never exceeds `1/3`, so
the `> 0.5` guard in `ingest_detection` is unsatisfiable: every candidate
score list is all zeros, the dict is not touched by scoring, the mutating
`tracking_quality` probe is never invoked, and every successful pass
spawns a fresh track per detection while discarding every pre-existing
track. -/
theorem iou_capped_reconcile_all_spawn :
    ∀ (tr : Tracker) (bb : Rect) (q : ℚ) (env : TrackEnv) (f : Frame)
      (ks : List ℕ) (d : Dict) (scores : List ℚ) (d2 : Dict) (n : ℕ)
      (s : TrackerList) (lbox : List Rect) (r : IngestResult),
    Tracker.iou tr bb = .ok q →
    scoreList env f bb ks d = .ok (scores, d2, n) →
    TrackerList.ingest_detection env s f lbox = .ok r →
    (q = (tr.intersect_area bb : ℚ) /
        ((tr.intersect_area bb : ℚ) + (tr.pos.area : ℚ) + (bb.area : ℚ)) ∧
      q ≤ 1 / 3 ∧ ¬ ((1 / 2 : ℚ) < q)) ∧
    (scores = List.replicate ks.length 0 ∧ d2 = d ∧ n = 0) ∧
    (r.probes = 0 ∧ r.rebound = [] ∧
      r.spawned = List.range' s.i lbox.length ∧
      dictKeys r.s.d = r.spawned ∧
      (∀ k ∈ dictKeys s.d, k < s.i → k ∉ dictKeys r.s.d)) := by
  intro tr bb q env f ks d scores d2 n s lbox r h1 h2 h3
  refine ⟨⟨Tracker.iou_ok_val tr bb q h1, Tracker.iou_ok_le_third tr bb q h1,
    Tracker.iou_ok_not_half tr bb q h1⟩,
    scoreList_zeros env f bb ks d scores d2 n h2, ?_⟩
  have hr := ingest_ok_spec env s f lbox r h3
  subst hr
  refine ⟨rfl, rfl, rfl, ?_, ?_⟩
  · exact dictKeys_spawnRun f s.i lbox
  · intro k hk hki
    dsimp only
    rw [dictKeys_spawnRun, List.mem_range'_1]
    omega

/-- Witness for C10 at concrete inputs: the tracker at `bb1` probed with
`bb1` itself, a one-key score pass, and a one-detection reconcile pass. -/
theorem iou_capped_reconcile_all_spawn_witness :
    Tracker.iou trOne bb1 = .ok ((trOne.intersect_area bb1 : ℚ) /
      ((trOne.intersect_area bb1 + trOne.pos.area + bb1.area : ℤ) : ℚ)) ∧
    scoreList env0 frameB bb1 [0] sOne.d = .ok ([0], sOne.d, 0) ∧
    TrackerList.ingest_detection env0 sOne frameB [bb1] = .ok rPassC10 ∧
    ((trOne.intersect_area bb1 : ℚ) /
      ((trOne.intersect_area bb1 + trOne.pos.area + bb1.area : ℤ) : ℚ)) ≤ 1 / 3 ∧
    rPassC10.probes = 0 ∧ rPassC10.rebound = [] := by
  have h1 := Tracker.iou_eq_ok trOne bb1 (by decide)
  have h2 : scoreList env0 frameB bb1 [0] sOne.d = .ok ([0], sOne.d, 0) :=
    scoreList_eval env0 frameB bb1 [0] sOne.d (by decide) (by decide)
  have h3 : TrackerList.ingest_detection env0 sOne frameB [bb1] = .ok rPassC10 :=
    ingest_eval env0 sOne frameB [bb1] (by decide)
  have main := iou_capped_reconcile_all_spawn trOne bb1 _ env0 frameB [0] sOne.d
    [0] sOne.d 0 sOne [bb1] rPassC10 h1 h2 h3
  exact ⟨h1, h2, h3, main.1.2.1, main.2.2.1, main.2.2.2.1⟩

end FaceTracking
